import Mathlib

/-!
Verification of the entry store and derived-metrics engine of the
Student Health & Wellness Tracker (src/script_Version2.js).

The JavaScript core is shallowly embedded:

* JS numbers produced by `parseFloat` are modelled as `Option ℚ`
  (`none` stands for `NaN`), numbers produced by `parseInt` as
  `Option ℤ`; the in-range arithmetic of the program never overflows
  and is exact on the values admitted by validation.
* `localStorage` is modelled per key as an optional stored value that
  is either well-formed JSON for a list of entries or corrupt
  (unparseable); `lp` (the safe-parse helper) and `lsSet` are the
  source's accessors.
* DOM reads/writes are modelled by explicit arguments and results:
  a submission handler takes the raw field values and the current
  store and returns the new store together with the per-field error
  messages it writes next to the inputs.
-/

namespace Shwt

/-! ### Entry data model (script_Version2.js lines 85-176) -/

/-- Focus entry: `{date, sleep, screen, exercise, rating}` (line 86). -/
structure FocusEntry where
  date : String
  sleep : ℚ
  screen : ℚ
  exercise : ℚ
  rating : ℤ
  deriving Repr, DecidableEq

/-- Skin entry: `{date, sleep, water, stress, condition}` (line 121). -/
structure SkinEntry where
  date : String
  sleep : ℚ
  water : ℚ
  stress : ℤ
  condition : String
  deriving Repr, DecidableEq

/-- Mood entry: `{date, mood, triggers}` (line 153). -/
structure MoodEntry where
  date : String
  mood : String
  triggers : List String
  deriving Repr, DecidableEq

/-! ### localStorage cells and the safe-parse helper `lp` (lines 22-30)

A storage cell for one of the three keys holds `none` when nothing is
stored (`localStorage.getItem` returned `null`, or the item was removed
by a clear), and otherwise a stored value that either parses as the
JSON of an entry list or is corrupt (`JSON.parse` throws).  JSON
serialisation of the entry records is injective, so a round-tripped
well-formed value is kept as the entry list itself. -/

/-- A stored string for one key: either unparseable content or the JSON
of an entry list. -/
inductive StoredVal (α : Type) where
  | corrupt : StoredVal α
  | wellFormed : List α → StoredVal α
  deriving Repr, DecidableEq

/-- One `localStorage` slot: `none` when the key is absent. -/
def Cell (α : Type) : Type := Option (StoredVal α)

/-- `lp(key)` (lines 22-27): reads the cell; absent (`null`, falsy) and
corrupt (`JSON.parse` throws, caught) both yield the empty list.  The
function is total: no error ever escapes to the caller. -/
def lp {α : Type} : Cell α → List α
  | none => []
  | some .corrupt => []
  | some (.wellFormed l) => l

/-- `lsSet(key, data)` (lines 28-30): stores the JSON of `data`. -/
def lsSet {α : Type} (data : List α) : Cell α :=
  some (.wellFormed data)

/-- The append performed by every submit handler (e.g. lines 105-110):
read the full log with `lp`, push the entry, write back with `lsSet`. -/
def appendCell {α : Type} (cell : Cell α) (e : α) : Cell α :=
  lsSet (lp cell ++ [e])

/-- `localStorage.removeItem(key)` as used by the clear handlers
(lines 179-199). -/
def clearCell {α : Type} : Cell α := (none : Cell α)

/-- The three independently keyed logs (`LS_KEYS`, lines 15-19). -/
structure Store where
  focus : Cell FocusEntry
  skin : Cell SkinEntry
  mood : Cell MoodEntry

/-- The store whose three keys are all absent. -/
def emptyStore : Store := ⟨none, none, none⟩

/-! ### Validation and submission handlers (lines 88-176)

`parseFloat` / `parseInt` results arrive as `Option` values; each
handler computes one error message per field — the message written by
`showError` when the field fails, the empty string otherwise — and
appends exactly when every field passed. -/

/-- Raw focus form fields after `parseFloat` / `parseInt`
(lines 91-94); `none` is `NaN`. -/
structure RawFocus where
  sleep : Option ℚ
  screen : Option ℚ
  exercise : Option ℚ
  rating : Option ℤ

/-- Raw skin form fields (lines 126-129). -/
structure RawSkin where
  sleep : Option ℚ
  water : Option ℚ
  stress : Option ℤ
  condition : String

/-- Raw mood form fields (lines 157-159). -/
structure RawMood where
  date : String
  mood : String
  triggers : List String

/-- Line 98: `isNaN(sleep) || sleep < 0 || sleep > 24`. -/
def badRange (lo hi : ℚ) : Option ℚ → Bool
  | none => true
  | some v => v < lo || v > hi

/-- Lines 94, 101, 128, 134: the `parseInt` fields with their integer
range check. -/
def badRangeInt (lo hi : ℤ) : Option ℤ → Bool
  | none => true
  | some v => v < lo || v > hi

/-- The four error slots written by `onFocusSubmit` (lines 98-101);
empty string means the field passed. -/
structure FocusErrors where
  sleep : String
  screen : String
  exercise : String
  rating : String
  deriving Repr, DecidableEq

/-- Error messages computed by `onFocusSubmit` (lines 98-101): each
field is checked unconditionally, in source order, whether or not an
earlier field already failed. -/
def focusErrors (r : RawFocus) : FocusErrors where
  sleep := if badRange 0 24 r.sleep then "Enter 0–24" else ""
  screen := if badRange 0 24 r.screen then "Enter 0–24" else ""
  exercise := if badRange 0 600 r.exercise then "Enter 0–600" else ""
  rating := if badRangeInt 1 10 r.rating then "Enter 1–10" else ""

/-- `ok` after the four checks of lines 97-101. -/
def focusOk (r : RawFocus) : Bool :=
  !(badRange 0 24 r.sleep) && !(badRange 0 24 r.screen) &&
    !(badRange 0 600 r.exercise) && !(badRangeInt 1 10 r.rating)

/-- `onFocusSubmit` (lines 88-118) restricted to its store effect:
when validation fails the handler returns before the append (line 103),
otherwise it pushes `{date: todayDate(), sleep, screen, exercise,
rating}` onto the focus log.  `today` is the value of `todayDate()` at
submission time. -/
def onFocusSubmit (r : RawFocus) (today : String) (s : Store) : Store :=
  let e : FocusEntry :=
    ⟨today, r.sleep.getD 0, r.screen.getD 0, r.exercise.getD 0,
      r.rating.getD 0⟩
  if focusOk r then { s with focus := appendCell s.focus e } else s

/-- The four error slots written by `onSkinSubmit` (lines 132-135). -/
structure SkinErrors where
  sleep : String
  water : String
  stress : String
  condition : String
  deriving Repr, DecidableEq

/-- Error messages computed by `onSkinSubmit` (lines 132-135); the
condition check is JS truthiness of the select value: only the empty
string fails. -/
def skinErrors (r : RawSkin) : SkinErrors where
  sleep := if badRange 0 24 r.sleep then "Enter 0–24" else ""
  water := if badRange 0 50 r.water then "Enter 0–50" else ""
  stress := if badRangeInt 1 10 r.stress then "Enter 1–10" else ""
  condition := if r.condition = "" then "Select a condition" else ""

/-- `ok` after the four checks of lines 131-135. -/
def skinOk (r : RawSkin) : Bool :=
  !(badRange 0 24 r.sleep) && !(badRange 0 50 r.water) &&
    !(badRangeInt 1 10 r.stress) && !(r.condition = "")

/-- `onSkinSubmit` (lines 124-150) restricted to its store effect. -/
def onSkinSubmit (r : RawSkin) (today : String) (s : Store) : Store :=
  let e : SkinEntry :=
    ⟨today, r.sleep.getD 0, r.water.getD 0, r.stress.getD 0, r.condition⟩
  if skinOk r then { s with skin := appendCell s.skin e } else s

/-- `ok` after the two checks of lines 162-163 (JS truthiness:
only the empty string fails). -/
def moodOk (r : RawMood) : Bool :=
  !(r.date = "") && !(r.mood = "")

/-- `onMoodSubmit` (lines 155-176) restricted to its store effect. -/
def onMoodSubmit (r : RawMood) (s : Store) : Store :=
  let e : MoodEntry := ⟨r.date, r.mood, r.triggers⟩
  if moodOk r then { s with mood := appendCell s.mood e } else s

/-! ### Export (lines 202-214) -/

/-- The snapshot serialised by `exportData` (lines 203-207): the three
full logs as read by `lp`. -/
structure ExportSnapshot where
  focus : List FocusEntry
  skin : List SkinEntry
  mood : List MoodEntry
  deriving Repr, DecidableEq

/-- `exportData`'s data object (lines 202-207); read-only. -/
def exportAll (s : Store) : ExportSnapshot :=
  ⟨lp s.focus, lp s.skin, lp s.mood⟩

/-- Feeding a list of entries back through repeated `append` calls
starting from an empty log. -/
def replay {α : Type} (l : List α) : Cell α :=
  l.foldl appendCell (none : Cell α)

/-! ### Sleep-bucket aggregation (`updateSummary`, lines 402-416)

Ratings are integers, bucket sums and means are exact rationals; the
only floating-point operation, `toFixed(2)`, is idealised as exact
decimal rounding (round half up) of the exact mean. -/

/-- One record of the `buckets` array literal (lines 403-408). -/
structure Bucket where
  label : String
  lo : ℚ
  hi : ℚ
  sum : ℚ
  n : ℕ
  deriving Repr, DecidableEq

/-- The four bucket records as initialised on lines 403-408
(`min:-1, max:6`, `min:6, max:7`, `min:7, max:9`, `min:9, max:100`). -/
def initBuckets : List Bucket :=
  [⟨"<=6", -1, 6, 0, 0⟩, ⟨"6-7", 6, 7, 0, 0⟩,
   ⟨"7-9", 7, 9, 0, 0⟩, ⟨"9+", 9, 100, 0, 0⟩]

/-- Line 411: `e.sleep > b.min && e.sleep <= b.max`. -/
def inB (b : Bucket) (sleep : ℚ) : Bool :=
  sleep > b.lo && sleep ≤ b.hi

/-- The body of the inner `forEach` on line 411: accumulate the
entry's rating into every bucket whose range contains its sleep. -/
def bucketStep (e : FocusEntry) (b : Bucket) : Bucket :=
  if inB b e.sleep then
    { b with sum := b.sum + (e.rating : ℚ), n := b.n + 1 }
  else b

/-- The nested `forEach` of lines 409-413: every entry visits every
bucket. -/
def fillBuckets (entries : List FocusEntry) : List Bucket :=
  entries.foldl (fun bs e => bs.map (bucketStep e)) initBuckets

/-- `(+x.toFixed(2))` idealised on exact rationals: round to the
nearest hundredth, half up (the ECMAScript `toFixed` tie rule picks
the larger candidate). -/
def toFixed2 (x : ℚ) : ℚ :=
  (⌊x * 100 + 1 / 2⌋ : ℤ) / 100

/-- Line 415: `buckets.map(b => b.n ? +(b.sum / b.n).toFixed(2) : 0)`
— the chart series of per-bucket average focus ratings, with the
division guarded by the member count. -/
def summarySleepData (entries : List FocusEntry) : List ℚ :=
  (fillBuckets entries).map fun b =>
    if b.n = 0 then 0 else toFixed2 (b.sum / (b.n : ℚ))

/-! ### Skin distribution and summary insight (lines 418-449) -/

/-- Lines 419-422: per-condition counters over the three own keys of
the `counts` object literal; other condition values hit the
`counts[e.condition] !== undefined` guard and are not counted. -/
def skinConditionCount (entries : List SkinEntry) (cond : String) : ℕ :=
  entries.countP (fun e => e.condition = cond)

/-- Stable insertion of a keyed count into a list sorted by strictly
descending count: an element with an equal count stays behind the ones
already placed. -/
def insertDesc (x : String × ℕ) : List (String × ℕ) → List (String × ℕ)
  | [] => [x]
  | y :: ys => if x.2 > y.2 then x :: y :: ys else y :: insertDesc x ys

/-- `Object.entries(counts).sort((a,b)=>b[1]-a[1])` (line 444):
ECMAScript `Array.prototype.sort` is stable and the comparator orders
by descending count, so the result is the unique stable descending
reordering, modelled by left-to-right stable insertion. -/
def sortByCountDesc (l : List (String × ℕ)) : List (String × ℕ) :=
  l.foldl (fun acc x => insertDesc x acc) []

/-- Lines 443-446: when any skin entries exist, the condition named by
the summary insight — the first element of the sorted
`Object.entries(counts)`, whose insertion order is clear, dry,
irritated. -/
def skinInsightCondition (entries : List SkinEntry) : Option String :=
  if entries.length > 0 then
    ((sortByCountDesc
        [("clear", skinConditionCount entries "clear"),
         ("dry", skinConditionCount entries "dry"),
         ("irritated", skinConditionCount entries "irritated")]).head?).map
      Prod.fst
  else none

/-- Modelled from the spec (§4.3): the condition with the highest
count, ties broken by the fixed order clear, dry, irritated.  This is
the specification-side definition the source computation is compared
against. -/
def specTopCondition (c d i : ℕ) : String :=
  if c ≥ d ∧ c ≥ i then "clear" else if d ≥ i then "dry" else "irritated"

/-! ### Mood weekday histogram (`updateMoodCharts`, lines 374-395)

`new Date(e.date).getDay()` is the platform date collaborator: it is
modelled as an arbitrary function `getDay` from date strings to
`Option (Fin 7)`, `some w` being the native weekday (0 = Sunday) of a
parseable date and `none` the `NaN` of an Invalid Date.  An increment
at index `NaN` creates a stray `"NaN"` property on the row array and
touches none of the seven weekday columns, which are all the model
tracks. -/

/-- The four rows of the `counts` object (line 378), each a 7-column
weekday counter (Mon = 0 .. Sun = 6). -/
structure MoodWeekCounts where
  happy : Fin 7 → ℕ
  calm : Fin 7 → ℕ
  stressed : Fin 7 → ℕ
  tired : Fin 7 → ℕ

/-- Line 382: `(d.getDay()+6)%7`, remapping native Sunday = 0 to
Mon = 0 .. Sun = 6. -/
def weekdayIndex (w : Fin 7) : Fin 7 :=
  ⟨((w : ℕ) + 6) % 7, Nat.mod_lt _ (by norm_num)⟩

/-- `counts[e.mood][weekday] += 1` at a valid index. -/
def bumpRow (r : Fin 7 → ℕ) (k : Fin 7) : Fin 7 → ℕ :=
  fun j => if j = k then r j + 1 else r j

/-- The body of the `forEach` on lines 380-384 for one entry: an
Invalid Date gives weekday `NaN`, whose write lands outside the seven
columns; an unrecognised or empty mood fails the
`e.mood && counts[e.mood]` guard on line 383. -/
def moodStep (getDay : String → Option (Fin 7)) (c : MoodWeekCounts)
    (e : MoodEntry) : MoodWeekCounts :=
  match getDay e.date with
  | none => c
  | some w =>
    let k := weekdayIndex w
    if e.mood = "happy" then { c with happy := bumpRow c.happy k }
    else if e.mood = "calm" then { c with calm := bumpRow c.calm k }
    else if e.mood = "stressed" then { c with stressed := bumpRow c.stressed k }
    else if e.mood = "tired" then { c with tired := bumpRow c.tired k }
    else c

/-- The weekday histogram of `updateMoodCharts` (lines 378-384),
starting from four zeroed 7-column rows. -/
def moodHistogram (getDay : String → Option (Fin 7))
    (entries : List MoodEntry) : MoodWeekCounts :=
  entries.foldl (moodStep getDay) ⟨fun _ => 0, fun _ => 0, fun _ => 0, fun _ => 0⟩

/-! ### Mood tips (`updateMoodTips`, lines 515-536) -/

/-- `moodCounts[m]` (line 523): how many entries record mood `m`;
`(moodCounts[m] || 0)` makes an absent key count 0, as here. -/
def moodCount (entries : List MoodEntry) (m : String) : ℕ :=
  entries.countP (fun e => e.mood = m)

/-- The fixed message shown when the mood log is empty (line 518). -/
def moodNoDataMsg : String :=
  "Keep a daily mood log to spot patterns. Small routines like short walks, consistent sleep, and talking to friends can help mood."

/-- The coping message (line 526). -/
def copingMsg : String :=
  "You have recorded stress often. Try short breathing breaks, a quick walk, or organizing tasks into smaller steps."

/-- The tiredness message (line 529). -/
def tiredMsg : String :=
  "Feeling tired regularly? Look at sleep and screen habits — small changes can help energy."

/-- The reinforcement message (line 532). -/
def reinforceMsg : String :=
  "Nice — you record happy moods often. Keep doing the healthy routines that support this mood."

/-- `updateMoodTips` (lines 515-536) as the ordered list of messages
it renders: the empty log short-circuits to the fixed no-data message;
otherwise the three checks of lines 525-533 are each evaluated
unconditionally, in source order. -/
def moodTips (entries : List MoodEntry) : List String :=
  if entries = [] then [moodNoDataMsg]
  else
    (if moodCount entries "stressed" > moodCount entries "happy"
      then [copingMsg] else []) ++
    (if moodCount entries "tired" > 0 then [tiredMsg] else []) ++
    (if moodCount entries "happy" ≥
        max (moodCount entries "calm")
          (max (moodCount entries "stressed") (moodCount entries "tired"))
      then [reinforceMsg] else [])

/-! ### Reachable store states (for the store invariant)

Focus and skin numeric fields come from free-text number inputs, so
their parsed values range over all of `Option ℚ` / `Option ℤ`.  The
skin condition and the mood value come from `<select>` elements in the
page's HTML, which is not part of the analysed sources; the option
lists are therefore modelled from the spec. -/

/-- Modelled from the spec: the page's HTML (absent from the analysed
sources) offers the skin-condition select exactly the placeholder and
the three conditions of §3, `enum{clear,dry,irritated}`. -/
def skinConditionOptions : List String :=
  ["", "clear", "dry", "irritated"]

/-- Modelled from the spec: the mood select offers exactly the
placeholder and the four moods of §3, `enum{happy,calm,stressed,tired}`. -/
def moodValueOptions : List String :=
  ["", "happy", "calm", "stressed", "tired"]

/-- Store states reachable from the empty store by form submissions
(validated appends, lines 88-176) and confirmed whole-category clears
(lines 179-199). -/
inductive Reach : Store → Prop
  | empty : Reach emptyStore
  | focusSubmit (r : RawFocus) (today : String) {s : Store} :
      Reach s → Reach (onFocusSubmit r today s)
  | skinSubmit (r : RawSkin) (today : String) {s : Store} :
      Reach s → r.condition ∈ skinConditionOptions →
      Reach (onSkinSubmit r today s)
  | moodSubmit (r : RawMood) {s : Store} :
      Reach s → r.mood ∈ moodValueOptions → Reach (onMoodSubmit r s)
  | clearFocus {s : Store} : Reach s → Reach { s with focus := clearCell }
  | clearSkin {s : Store} : Reach s → Reach { s with skin := clearCell }
  | clearMood {s : Store} : Reach s → Reach { s with mood := clearCell }

/-- The focus field bounds of §3: sleep and screen in [0,24], exercise
in [0,600], rating an integer in [1,10]. -/
def FocusEntryInBounds (e : FocusEntry) : Prop :=
  0 ≤ e.sleep ∧ e.sleep ≤ 24 ∧ 0 ≤ e.screen ∧ e.screen ≤ 24 ∧
    0 ≤ e.exercise ∧ e.exercise ≤ 600 ∧ 1 ≤ e.rating ∧ e.rating ≤ 10

/-- The skin field bounds of §3: sleep in [0,24], water in [0,50],
stress an integer in [1,10], condition one of clear, dry, irritated. -/
def SkinEntryInBounds (e : SkinEntry) : Prop :=
  0 ≤ e.sleep ∧ e.sleep ≤ 24 ∧ 0 ≤ e.water ∧ e.water ≤ 50 ∧
    1 ≤ e.stress ∧ e.stress ≤ 10 ∧
    e.condition ∈ (["clear", "dry", "irritated"] : List String)

/-- The mood field bounds of §3: a non-empty date and one of the four
moods. -/
def MoodEntryInBounds (e : MoodEntry) : Prop :=
  e.date ≠ "" ∧
    e.mood ∈ (["happy", "calm", "stressed", "tired"] : List String)

/-- Every entry of every category log satisfies its category's
bounds. -/
def StoreInBounds (s : Store) : Prop :=
  (∀ e ∈ lp s.focus, FocusEntryInBounds e) ∧
    (∀ e ∈ lp s.skin, SkinEntryInBounds e) ∧
    (∀ e ∈ lp s.mood, MoodEntryInBounds e)

/-! ## Theorems -/

/-- Claim C2: for every category and stored log, append followed by
readAll yields a sequence one longer than before, whose last element
is the appended entry and whose preceding elements are the prior log
unchanged and in order. -/
theorem append_readAll_snoc {α : Type} (cell : Cell α) (e : α) :
    lp (appendCell cell e) = lp cell ++ [e] ∧
    (lp (appendCell cell e)).length = (lp cell).length + 1 ∧
    (lp (appendCell cell e)).getLast? = some e ∧
    (lp (appendCell cell e)).dropLast = lp cell := by
  refine ⟨rfl, ?_, ?_, ?_⟩
  · simp [appendCell, lsSet, lp]
  · show (lp cell ++ [e]).getLast? = some e
    simp
  · show (lp cell ++ [e]).dropLast = lp cell
    simp

/-- Claim C6: readAll returns the empty sequence both when nothing is
stored for the category and when the stored content is unparseable;
`lp` is a total function, so corrupt content never surfaces as an
error to the caller. -/
theorem readAll_absent_or_corrupt_empty (α : Type) :
    lp (none : Cell α) = [] ∧ lp (some StoredVal.corrupt : Cell α) = [] :=
  ⟨rfl, rfl⟩

theorem lp_none {α : Type} : lp (none : Cell α) = [] := rfl

theorem lp_lsSet {α : Type} (l : List α) : lp (lsSet l) = l := rfl

theorem lp_foldl_appendCell {α : Type} (l : List α) (cell : Cell α) :
    lp (l.foldl appendCell cell) = lp cell ++ l := by
  induction l generalizing cell with
  | nil => simp
  | cons a t ih =>
      simp only [List.foldl_cons, ih]
      show lp (lsSet (lp cell ++ [a])) ++ t = lp cell ++ a :: t
      simp [lsSet, lp]

/-- Claim C8: replaying each array of the exportAll snapshot through
repeated appends starting from an empty log reconstructs per-category
logs equal to the originals. -/
theorem export_replay_roundtrip (s : Store) :
    lp (replay (exportAll s).focus) = lp s.focus ∧
    lp (replay (exportAll s).skin) = lp s.skin ∧
    lp (replay (exportAll s).mood) = lp s.mood := by
  refine ⟨?_, ?_, ?_⟩ <;>
    simp [replay, exportAll, lp_foldl_appendCell, lp_none]

/-- Claim C4: over the validated sleep range [0,24], each focus entry
falls in exactly one sleep bucket, with the closed-upper boundary
convention: sleep exactly 6 lands in "(-inf,6]", exactly 7 in
"(6,7]", exactly 9 in "(7,9]". -/
theorem sleepBucket_boundaries (sleep : ℚ) (h0 : 0 ≤ sleep)
    (h24 : sleep ≤ 24) :
    ((initBuckets.filter (fun b => inB b sleep)).map Bucket.label) =
      [if sleep ≤ 6 then "<=6" else if sleep ≤ 7 then "6-7"
       else if sleep ≤ 9 then "7-9" else "9+"] := by
  have h100 : sleep ≤ 100 := by linarith
  have hm1 : (-1 : ℚ) < sleep := by linarith
  simp only [initBuckets, List.filter_cons, List.filter_nil, inB,
    Bool.and_eq_true, decide_eq_true_eq]
  split_ifs <;> simp_all <;> linarith

/-- Witness for C4: a sleep value of exactly 7 hours is counted in
bucket "6-7" alone. -/
theorem sleepBucket_boundaries_witness :
    ((initBuckets.filter (fun b => inB b 7)).map Bucket.label) = ["6-7"] := by
  have h := sleepBucket_boundaries 7 (by norm_num) (by norm_num)
  simpa using h

theorem foldl_map_bucketStep (l : List FocusEntry) (bs : List Bucket) :
    l.foldl (fun bs e => bs.map (bucketStep e)) bs =
      bs.map (fun b => l.foldl (fun b e => bucketStep e b) b) := by
  induction l generalizing bs with
  | nil => simp
  | cons a t ih =>
      simp only [List.foldl_cons, ih, List.map_map]
      rfl

theorem foldl_bucketStep_eq (l : List FocusEntry) (b : Bucket) :
    l.foldl (fun b e => bucketStep e b) b =
      ⟨b.label, b.lo, b.hi,
        b.sum +
          ((l.filter (fun e => inB b e.sleep)).map
            (fun e => (e.rating : ℚ))).sum,
        b.n + (l.filter (fun e => inB b e.sleep)).length⟩ := by
  induction l generalizing b with
  | nil => simp
  | cons a t ih =>
      rw [List.foldl_cons, ih]
      have hpres : ∀ s, inB (bucketStep a b) s = inB b s := by
        intro s
        unfold bucketStep
        split <;> rfl
      simp only [hpres]
      by_cases h : inB b a.sleep
      · simp only [bucketStep, h, if_true, List.filter_cons]
        simp [h]
        constructor
        · ring
        · omega
      · simp only [bucketStep, h, if_false, List.filter_cons]
        simp [h]

/-- Claim C9: each value of the sleep-bucket chart series is 0 for a
bucket with no members and the rounded mean rating of the bucket's
members otherwise; the division is guarded by the member count, so no
division by zero can occur. -/
theorem bucket_average_guarded (entries : List FocusEntry) :
    summarySleepData entries =
      initBuckets.map (fun b =>
        if (entries.filter (fun e => inB b e.sleep)).length = 0 then 0
        else
          toFixed2
            (((entries.filter (fun e => inB b e.sleep)).map
                (fun e => (e.rating : ℚ))).sum /
              ((entries.filter (fun e => inB b e.sleep)).length : ℚ))) := by
  unfold summarySleepData fillBuckets
  rw [foldl_map_bucketStep, List.map_map]
  simp only [initBuckets, List.map_cons, List.map_nil, Function.comp]
  refine List.cons_eq_cons.mpr ⟨?_, List.cons_eq_cons.mpr ⟨?_,
    List.cons_eq_cons.mpr ⟨?_, List.cons_eq_cons.mpr ⟨?_, rfl⟩⟩⟩⟩ <;>
    · rw [foldl_bucketStep_eq]
      simp

theorem head_sort3_specTop (c d i : ℕ) :
    ((sortByCountDesc
        [("clear", c), ("dry", d), ("irritated", i)]).head?).map
      Prod.fst = some (specTopCondition c d i) := by
  unfold sortByCountDesc specTopCondition
  simp only [List.foldl_cons, List.foldl_nil, insertDesc]
  split_ifs <;> simp_all [insertDesc] <;>
    first
    | omega
    | (split_ifs <;> simp_all <;> try omega)

/-- Claim C7: for a non-empty skin log, the summary insight names the
condition with the highest count, and ties go to the first of the
fixed order clear, dry, irritated. -/
theorem skin_insight_top_condition (entries : List SkinEntry)
    (h : entries ≠ []) :
    skinInsightCondition entries =
      some (specTopCondition (skinConditionCount entries "clear")
        (skinConditionCount entries "dry")
        (skinConditionCount entries "irritated")) := by
  have hlen : 0 < entries.length := List.length_pos.mpr h
  unfold skinInsightCondition
  rw [if_pos hlen]
  exact head_sort3_specTop _ _ _

/-- Witness for C7: on the log clear, dry, dry the insight names
"dry", the strict majority; on clear, dry with a tie it names
"clear", the first in order. -/
theorem skin_insight_top_condition_witness :
    skinInsightCondition
        [⟨"2026-02-03", 8, 6, 2, "clear"⟩, ⟨"2026-02-04", 8, 6, 2, "dry"⟩,
         ⟨"2026-02-05", 8, 6, 2, "dry"⟩] = some "dry" ∧
      skinInsightCondition
        [⟨"2026-02-03", 8, 6, 2, "clear"⟩,
         ⟨"2026-02-04", 8, 6, 2, "dry"⟩] = some "clear" := by
  constructor
  · have h := skin_insight_top_condition
      [⟨"2026-02-03", 8, 6, 2, "clear"⟩, ⟨"2026-02-04", 8, 6, 2, "dry"⟩,
       ⟨"2026-02-05", 8, 6, 2, "dry"⟩] (by simp)
    rw [h]
    rfl
  · have h := skin_insight_top_condition
      [⟨"2026-02-03", 8, 6, 2, "clear"⟩, ⟨"2026-02-04", 8, 6, 2, "dry"⟩]
      (by simp)
    rw [h]
    rfl

theorem moodStep_invalid_date (getDay : String → Option (Fin 7))
    (c : MoodWeekCounts) (e : MoodEntry) (h : getDay e.date = none) :
    moodStep getDay c e = c := by
  simp [moodStep, h]

theorem foldl_moodStep_filter_valid (getDay : String → Option (Fin 7))
    (l : List MoodEntry) (c : MoodWeekCounts) :
    l.foldl (moodStep getDay) c =
      (l.filter (fun e => (getDay e.date).isSome)).foldl
        (moodStep getDay) c := by
  induction l generalizing c with
  | nil => simp
  | cons a t ih =>
      by_cases h : (getDay a.date).isSome
      · simp [List.filter_cons, h, ih]
      · have hn : getDay a.date = none :=
          Option.not_isSome_iff_eq_none.mp h
        simp [List.filter_cons, h, List.foldl_cons,
          moodStep_invalid_date getDay c a hn, ih]

/-- Claim C10: the weekday histogram is a total function, and an entry
whose date string does not parse (native weekday `NaN`) contributes to
none of the seven weekday columns of any mood's row: the histogram
equals the histogram of the sub-list of entries with parseable dates. -/
theorem mood_histogram_skips_invalid_dates
    (getDay : String → Option (Fin 7)) (entries : List MoodEntry) :
    moodHistogram getDay entries =
      moodHistogram getDay
        (entries.filter (fun e => (getDay e.date).isSome)) :=
  foldl_moodStep_filter_valid getDay entries _

theorem coping_mem_iff (l : List MoodEntry) :
    copingMsg ∈ moodTips l ↔
      moodCount l "stressed" > moodCount l "happy" := by
  unfold moodTips
  by_cases hl : l = []
  · simp [hl, moodCount, copingMsg, moodNoDataMsg]
  · rw [if_neg hl]
    split_ifs <;>
      simp_all [copingMsg, tiredMsg, reinforceMsg, moodNoDataMsg]

theorem tired_mem_iff (l : List MoodEntry) :
    tiredMsg ∈ moodTips l ↔ l ≠ [] ∧ moodCount l "tired" > 0 := by
  unfold moodTips
  by_cases hl : l = []
  · simp [hl, moodCount, tiredMsg, moodNoDataMsg]
  · rw [if_neg hl]
    split_ifs <;>
      simp_all [copingMsg, tiredMsg, reinforceMsg, moodNoDataMsg]

theorem reinforce_mem_iff (l : List MoodEntry) :
    reinforceMsg ∈ moodTips l ↔
      l ≠ [] ∧
        moodCount l "happy" ≥
          max (moodCount l "calm")
            (max (moodCount l "stressed") (moodCount l "tired")) := by
  unfold moodTips
  by_cases hl : l = []
  · simp [hl, moodCount, reinforceMsg, moodNoDataMsg]
  · rw [if_neg hl]
    split_ifs <;>
      simp_all [copingMsg, tiredMsg, reinforceMsg, moodNoDataMsg]

theorem coping_reinforce_exclusive (l : List MoodEntry) :
    ¬(copingMsg ∈ moodTips l ∧ reinforceMsg ∈ moodTips l) := by
  rintro ⟨h1, h3⟩
  rw [coping_mem_iff] at h1
  rw [reinforce_mem_iff] at h3
  have hs : moodCount l "stressed" ≤ moodCount l "happy" :=
    le_trans (le_trans (le_max_left _ _) (le_max_right _ _)) h3.2
  omega

/-- Counterexample to claim C5 as stated: there is no mood entry list
on which the coping, tiredness and reinforcement messages all fire
simultaneously, because the coping condition
count(stressed) > count(happy) contradicts the reinforcement
condition count(happy) ≥ max(..., count(stressed), ...). -/
theorem mood_tips_not_all_three :
    ¬∃ l : List MoodEntry,
      copingMsg ∈ moodTips l ∧ tiredMsg ∈ moodTips l ∧
        reinforceMsg ∈ moodTips l := by
  rintro ⟨l, h1, h2, h3⟩
  rw [coping_mem_iff] at h1
  rw [reinforce_mem_iff] at h3
  have hs : moodCount l "stressed" ≤ moodCount l "happy" :=
    le_trans (le_trans (le_max_left _ _) (le_max_right _ _)) h3.2
  omega

/-- Claim C5, amended: the three mood-tip checks are each evaluated
unconditionally; the tiredness message can fire together with the
coping message, and together with the reinforcement message, but the
coping and reinforcement messages never fire simultaneously, so no
list fires all three. -/
theorem mood_tips_pairwise_independent :
    (copingMsg ∈
        moodTips [⟨"2026-02-03", "stressed", []⟩,
          ⟨"2026-02-04", "tired", []⟩] ∧
      tiredMsg ∈
        moodTips [⟨"2026-02-03", "stressed", []⟩,
          ⟨"2026-02-04", "tired", []⟩]) ∧
    (tiredMsg ∈
        moodTips [⟨"2026-02-03", "happy", []⟩,
          ⟨"2026-02-04", "tired", []⟩] ∧
      reinforceMsg ∈
        moodTips [⟨"2026-02-03", "happy", []⟩,
          ⟨"2026-02-04", "tired", []⟩]) ∧
    ∀ l : List MoodEntry,
      ¬(copingMsg ∈ moodTips l ∧ reinforceMsg ∈ moodTips l) := by
  refine ⟨⟨?_, ?_⟩, ⟨?_, ?_⟩, coping_reinforce_exclusive⟩
  · rw [coping_mem_iff]
    decide
  · rw [tired_mem_iff]
    refine ⟨by simp, by decide⟩
  · rw [tired_mem_iff]
    refine ⟨by simp, by decide⟩
  · rw [reinforce_mem_iff]
    refine ⟨by simp, by decide⟩

theorem focusErrorsReport_holds (r : RawFocus) :
    ((focusErrors r).sleep = "" ↔ badRange 0 24 r.sleep = false) ∧
    ((focusErrors r).screen = "" ↔ badRange 0 24 r.screen = false) ∧
    ((focusErrors r).exercise = "" ↔ badRange 0 600 r.exercise = false) ∧
    ((focusErrors r).rating = "" ↔ badRangeInt 1 10 r.rating = false) := by
  refine ⟨?_, ?_, ?_, ?_⟩
  · cases hb : badRange 0 24 r.sleep <;> simp [focusErrors, hb]
  · cases hb : badRange 0 24 r.screen <;> simp [focusErrors, hb]
  · cases hb : badRange 0 600 r.exercise <;> simp [focusErrors, hb]
  · cases hb : badRangeInt 1 10 r.rating <;> simp [focusErrors, hb]

theorem skinErrorsReport_holds (r : RawSkin) :
    ((skinErrors r).sleep = "" ↔ badRange 0 24 r.sleep = false) ∧
    ((skinErrors r).water = "" ↔ badRange 0 50 r.water = false) ∧
    ((skinErrors r).stress = "" ↔ badRangeInt 1 10 r.stress = false) ∧
    ((skinErrors r).condition = "" ↔ r.condition ≠ "") := by
  refine ⟨?_, ?_, ?_, ?_⟩
  · cases hb : badRange 0 24 r.sleep <;> simp [skinErrors, hb]
  · cases hb : badRange 0 50 r.water <;> simp [skinErrors, hb]
  · cases hb : badRangeInt 1 10 r.stress <;> simp [skinErrors, hb]
  · by_cases hb : r.condition = "" <;> simp [skinErrors, hb]

/-- Claim C3: whenever at least one field of a focus or skin
submission is unparseable or out of bounds, validation rejects the
submission (the store is unchanged), and every field — evaluated
independently, never short-circuited — carries the empty message
exactly when it is in bounds and a non-empty error message exactly
when it is not. -/
theorem validate_reports_all_fields :
    (∀ r : RawFocus,
      badRange 0 24 r.sleep = true ∨ badRange 0 24 r.screen = true ∨
        badRange 0 600 r.exercise = true ∨
        badRangeInt 1 10 r.rating = true →
      focusOk r = false ∧
        (∀ today s, onFocusSubmit r today s = s) ∧
        (((focusErrors r).sleep = "" ↔ badRange 0 24 r.sleep = false) ∧
          ((focusErrors r).screen = "" ↔ badRange 0 24 r.screen = false) ∧
          ((focusErrors r).exercise = "" ↔
            badRange 0 600 r.exercise = false) ∧
          ((focusErrors r).rating = "" ↔
            badRangeInt 1 10 r.rating = false))) ∧
    (∀ r : RawSkin,
      badRange 0 24 r.sleep = true ∨ badRange 0 50 r.water = true ∨
        badRangeInt 1 10 r.stress = true ∨ r.condition = "" →
      skinOk r = false ∧
        (∀ today s, onSkinSubmit r today s = s) ∧
        (((skinErrors r).sleep = "" ↔ badRange 0 24 r.sleep = false) ∧
          ((skinErrors r).water = "" ↔ badRange 0 50 r.water = false) ∧
          ((skinErrors r).stress = "" ↔
            badRangeInt 1 10 r.stress = false) ∧
          ((skinErrors r).condition = "" ↔ r.condition ≠ ""))) := by
  constructor
  · intro r h
    have hok : focusOk r = false := by
      rcases h with h | h | h | h <;> simp [focusOk, h]
    exact ⟨hok, fun today s => by simp [onFocusSubmit, hok],
      focusErrorsReport_holds r⟩
  · intro r h
    have hok : skinOk r = false := by
      rcases h with h | h | h | h <;> simp [skinOk, h]
    exact ⟨hok, fun today s => by simp [onSkinSubmit, hok],
      skinErrorsReport_holds r⟩

/-- Witness for C3: a focus submission with sleep 30 (out of bounds)
and a skin submission with an empty condition are both rejected with
the store unchanged; the failing field carries a message and the
passing fields carry the empty message. -/
theorem validate_reports_all_fields_witness :
    focusOk ⟨some 30, some 3, some 25, some 8⟩ = false ∧
      onFocusSubmit ⟨some 30, some 3, some 25, some 8⟩ "2026-02-03"
        emptyStore = emptyStore ∧
      (focusErrors ⟨some 30, some 3, some 25, some 8⟩).sleep ≠ "" ∧
      (focusErrors ⟨some 30, some 3, some 25, some 8⟩).screen = "" ∧
      skinOk ⟨some 8, some 6, some 2, ""⟩ = false ∧
      onSkinSubmit ⟨some 8, some 6, some 2, ""⟩ "2026-02-03"
        emptyStore = emptyStore := by
  have hf := validate_reports_all_fields.1 ⟨some 30, some 3, some 25, some 8⟩
    (Or.inl (by decide))
  have hs := validate_reports_all_fields.2 ⟨some 8, some 6, some 2, ""⟩
    (Or.inr (Or.inr (Or.inr rfl)))
  refine ⟨hf.1, hf.2.1 "2026-02-03" emptyStore, ?_, ?_, hs.1,
    hs.2.1 "2026-02-03" emptyStore⟩
  · intro hemp
    have := (hf.2.2.1).mp hemp
    simp at this
    exact absurd this (by decide)
  · exact (hf.2.2.2.1).mpr (by decide)

theorem of_badRange_false {lo hi : ℚ} {o : Option ℚ}
    (h : badRange lo hi o = false) : lo ≤ o.getD 0 ∧ o.getD 0 ≤ hi := by
  cases o with
  | none => simp [badRange] at h
  | some v =>
      simp [badRange] at h
      exact ⟨h.1, h.2⟩

theorem of_badRangeInt_false {lo hi : ℤ} {o : Option ℤ}
    (h : badRangeInt lo hi o = false) :
    lo ≤ o.getD 0 ∧ o.getD 0 ≤ hi := by
  cases o with
  | none => simp [badRangeInt] at h
  | some v =>
      simp [badRangeInt] at h
      exact ⟨h.1, h.2⟩

/-- Claim C1: every reachable store state — reachable from the empty
store by validated submissions and whole-category clears — holds only
entries satisfying their category's field bounds: focus sleep and
screen in [0,24], exercise in [0,600], rating in [1,10]; skin sleep in
[0,24], water in [0,50], stress in [1,10], condition among clear, dry,
irritated; mood date non-empty and mood among happy, calm, stressed,
tired. -/
theorem reachable_store_in_bounds (s : Store) (h : Reach s) :
    StoreInBounds s := by
  induction h with
  | empty =>
      refine ⟨?_, ?_, ?_⟩ <;> intro e he <;>
        simp [emptyStore, lp_none] at he
  | focusSubmit r today hr ih =>
      obtain ⟨hf, hsk, hm⟩ := ih
      by_cases hok : focusOk r
      · refine ⟨?_, ?_, ?_⟩ <;> simp only [onFocusSubmit, hok, if_true]
        · intro e he
          rw [(append_readAll_snoc _ _).1] at he
          rcases List.mem_append.mp he with hmem | hmem
          · exact hf e hmem
          · have hE := List.mem_singleton.mp hmem
            subst hE
            simp only [focusOk, Bool.and_eq_true, Bool.not_eq_true'] at hok
            obtain ⟨⟨⟨h1, h2⟩, h3⟩, h4⟩ := hok
            obtain ⟨a1, a2⟩ := of_badRange_false h1
            obtain ⟨b1, b2⟩ := of_badRange_false h2
            obtain ⟨c1, c2⟩ := of_badRange_false h3
            obtain ⟨d1, d2⟩ := of_badRangeInt_false h4
            exact ⟨a1, a2, b1, b2, c1, c2, d1, d2⟩
        · exact hsk
        · exact hm
      · simpa [onFocusSubmit, hok] using ⟨hf, hsk, hm⟩
  | skinSubmit r today hr hopt ih =>
      obtain ⟨hf, hsk, hm⟩ := ih
      by_cases hok : skinOk r
      · refine ⟨?_, ?_, ?_⟩ <;> simp only [onSkinSubmit, hok, if_true]
        · exact hf
        · intro e he
          rw [(append_readAll_snoc _ _).1] at he
          rcases List.mem_append.mp he with hmem | hmem
          · exact hsk e hmem
          · have hE := List.mem_singleton.mp hmem
            subst hE
            simp only [skinOk, Bool.and_eq_true, Bool.not_eq_true',
              decide_eq_false_iff_not] at hok
            obtain ⟨⟨⟨h1, h2⟩, h3⟩, h4⟩ := hok
            obtain ⟨a1, a2⟩ := of_badRange_false h1
            obtain ⟨b1, b2⟩ := of_badRange_false h2
            obtain ⟨c1, c2⟩ := of_badRangeInt_false h3
            refine ⟨a1, a2, b1, b2, c1, c2, ?_⟩
            simp only [skinConditionOptions, List.mem_cons,
              List.not_mem_nil, or_false] at hopt
            rcases hopt with h | h | h | h
            · exact absurd h h4
            · simp [h]
            · simp [h]
            · simp [h]
        · exact hm
      · simpa [onSkinSubmit, hok] using ⟨hf, hsk, hm⟩
  | moodSubmit r hr hopt ih =>
      obtain ⟨hf, hsk, hm⟩ := ih
      by_cases hok : moodOk r
      · refine ⟨?_, ?_, ?_⟩ <;> simp only [onMoodSubmit, hok, if_true]
        · exact hf
        · exact hsk
        · intro e he
          rw [(append_readAll_snoc _ _).1] at he
          rcases List.mem_append.mp he with hmem | hmem
          · exact hm e hmem
          · have hE := List.mem_singleton.mp hmem
            subst hE
            simp only [moodOk, Bool.and_eq_true, Bool.not_eq_true',
              decide_eq_false_iff_not] at hok
            refine ⟨hok.1, ?_⟩
            simp only [moodValueOptions, List.mem_cons,
              List.not_mem_nil, or_false] at hopt
            rcases hopt with h | h | h | h | h
            · exact absurd h hok.2
            · simp [h]
            · simp [h]
            · simp [h]
            · simp [h]
      · simpa [onMoodSubmit, hok] using ⟨hf, hsk, hm⟩
  | clearFocus hr ih =>
      obtain ⟨hf, hsk, hm⟩ := ih
      refine ⟨?_, hsk, hm⟩
      intro e he
      simp [clearCell, lp_none] at he
  | clearSkin hr ih =>
      obtain ⟨hf, hsk, hm⟩ := ih
      refine ⟨hf, ?_, hm⟩
      intro e he
      simp [clearCell, lp_none] at he
  | clearMood hr ih =>
      obtain ⟨hf, hsk, hm⟩ := ih
      refine ⟨hf, hsk, ?_⟩
      intro e he
      simp [clearCell, lp_none] at he

/-- Witness for C1: the state after one valid focus submission and one
valid mood submission from the empty store satisfies the invariant. -/
theorem reachable_store_in_bounds_witness :
    StoreInBounds
      (onMoodSubmit ⟨"2026-02-03", "happy", []⟩
        (onFocusSubmit ⟨some 8, some 3, some 25, some 8⟩ "2026-02-03"
          emptyStore)) :=
  reachable_store_in_bounds _
    (Reach.moodSubmit ⟨"2026-02-03", "happy", []⟩
      (Reach.focusSubmit ⟨some 8, some 3, some 25, some 8⟩ "2026-02-03"
        Reach.empty)
      (by simp [moodValueOptions]))

end Shwt
